import Mathlib

/-!
Shallow embedding of the `create_lms_tests` fixture generator (src/src/main.rs)
and proofs about its parameter resolution, leaf sampling, signing
orchestration and fixture emission pipeline.

The external `lms_hss` signing/verification service is kept abstract as a
structure of operations; randomness of the leaf sampler is made explicit as a
permutation parameter.
-/

/-- The `lms_hss::LmsAlgorithmType` identifiers used by `main` (src/src/main.rs). -/
inductive LmsAlgorithmType where
  | LmsSha256N32H5 | LmsSha256N32H10 | LmsSha256N32H15 | LmsSha256N32H20
  | LmsSha256N24H5 | LmsSha256N24H10 | LmsSha256N24H15 | LmsSha256N24H20
  deriving DecidableEq, Repr, Fintype

/-- The `lms_hss::LmotsAlgorithmType` identifiers used by `main` (src/src/main.rs). -/
inductive LmotsAlgorithmType where
  | LmotsSha256N32W1 | LmotsSha256N32W2 | LmotsSha256N32W4 | LmotsSha256N32W8
  | LmotsSha256N24W1 | LmotsSha256N24W2 | LmotsSha256N24W4 | LmotsSha256N24W8
  deriving DecidableEq, Repr, Fintype

/-- `let valid_height = matches!(args.tree_height, 5 | 10 | 15 | 20)` (main.rs:159). -/
def valid_height (h : Nat) : Bool :=
  h == 5 || h == 10 || h == 15 || h == 20

/-- `let valid_n = matches!(args.n, 32 | 24)` (main.rs:168). -/
def valid_n (n : Nat) : Bool :=
  n == 32 || n == 24

/-- `let valid_w = matches!(args.w, 1 | 2 | 4 | 8)` (main.rs:174). -/
def valid_w (w : Nat) : Bool :=
  w == 1 || w == 2 || w == 4 || w == 8

/-- The parameter-resolution step of `main` (main.rs:193-246): two mutable
locals initialised to the `N32H5` / `N32W8` defaults, then a chain of
independent `if` statements keyed on `n`, `tree_height` and `w`. -/
def resolveTypes (n w tree_height : Nat) : LmsAlgorithmType × LmotsAlgorithmType := Id.run do
  let mut the_lms_type := LmsAlgorithmType.LmsSha256N32H5
  let mut the_ots_type := LmotsAlgorithmType.LmotsSha256N32W8
  if n == 32 then
    if tree_height == 5 then the_lms_type := LmsAlgorithmType.LmsSha256N32H5
    if tree_height == 10 then the_lms_type := LmsAlgorithmType.LmsSha256N32H10
    if tree_height == 15 then the_lms_type := LmsAlgorithmType.LmsSha256N32H15
    if tree_height == 20 then the_lms_type := LmsAlgorithmType.LmsSha256N32H20
    if w == 1 then the_ots_type := LmotsAlgorithmType.LmotsSha256N32W1
    if w == 2 then the_ots_type := LmotsAlgorithmType.LmotsSha256N32W2
    if w == 4 then the_ots_type := LmotsAlgorithmType.LmotsSha256N32W4
    if w == 8 then the_ots_type := LmotsAlgorithmType.LmotsSha256N32W8
  if n == 24 then
    if tree_height == 5 then the_lms_type := LmsAlgorithmType.LmsSha256N24H5
    if tree_height == 10 then the_lms_type := LmsAlgorithmType.LmsSha256N24H10
    if tree_height == 15 then the_lms_type := LmsAlgorithmType.LmsSha256N24H15
    if tree_height == 20 then the_lms_type := LmsAlgorithmType.LmsSha256N24H20
    if w == 1 then the_ots_type := LmotsAlgorithmType.LmotsSha256N24W1
    if w == 2 then the_ots_type := LmotsAlgorithmType.LmotsSha256N24W2
    if w == 4 then the_ots_type := LmotsAlgorithmType.LmotsSha256N24W4
    if w == 8 then the_ots_type := LmotsAlgorithmType.LmotsSha256N24W8
  return (the_lms_type, the_ots_type)

/-- Spec-side lookup table for the LMS identifier, keyed by `(N, H)`
(the spec demands resolution be expressible as a direct lookup). -/
def lmsLookup (n h : Nat) : Option LmsAlgorithmType :=
  match n, h with
  | 32, 5 => some .LmsSha256N32H5
  | 32, 10 => some .LmsSha256N32H10
  | 32, 15 => some .LmsSha256N32H15
  | 32, 20 => some .LmsSha256N32H20
  | 24, 5 => some .LmsSha256N24H5
  | 24, 10 => some .LmsSha256N24H10
  | 24, 15 => some .LmsSha256N24H15
  | 24, 20 => some .LmsSha256N24H20
  | _, _ => none

/-- Spec-side lookup table for the LMOTS identifier, keyed by `(N, W)`. -/
def lmotsLookup (n w : Nat) : Option LmotsAlgorithmType :=
  match n, w with
  | 32, 1 => some .LmotsSha256N32W1
  | 32, 2 => some .LmotsSha256N32W2
  | 32, 4 => some .LmotsSha256N32W4
  | 32, 8 => some .LmotsSha256N32W8
  | 24, 1 => some .LmotsSha256N24W1
  | 24, 2 => some .LmotsSha256N24W2
  | 24, 4 => some .LmotsSha256N24W4
  | 24, 8 => some .LmotsSha256N24W8
  | _, _ => none

/-- C1: for every valid parameter triple the resolution step produces exactly
one `(LmsTypeId, LmotsTypeId)` pair — the unique pair given by the two
spec-side lookup tables keyed by `(N,H)` and `(N,W)`.  Determinism (same input
gives same output on every call) is inherent: `resolveTypes` is a pure
function of the triple. -/
theorem resolver_unique (n w h : Nat)
    (hn : valid_n n = true) (hw : valid_w w = true) (hh : valid_height h = true) :
    ∃! pr : LmsAlgorithmType × LmotsAlgorithmType,
      resolveTypes n w h = pr ∧ lmsLookup n h = some pr.1 ∧ lmotsLookup n w = some pr.2 := by
  simp only [valid_n, Bool.or_eq_true, beq_iff_eq] at hn
  simp only [valid_w, Bool.or_eq_true, beq_iff_eq] at hw
  simp only [valid_height, Bool.or_eq_true, beq_iff_eq] at hh
  rcases hn with rfl | rfl <;> rcases hw with ((rfl | rfl) | rfl) | rfl <;>
    rcases hh with ((rfl | rfl) | rfl) | rfl <;>
    exact ⟨resolveTypes _ _ _, ⟨rfl, rfl, rfl⟩, fun y hy => hy.1.symm⟩

/-- Witness for `resolver_unique` at the triple `(32, 8, 5)`. -/
theorem resolver_unique_witness :
    ∃! pr : LmsAlgorithmType × LmotsAlgorithmType,
      resolveTypes 32 8 5 = pr ∧ lmsLookup 32 5 = some pr.1 ∧ lmotsLookup 32 8 = some pr.2 :=
  resolver_unique 32 8 5 (by decide) (by decide) (by decide)

/-- Modelled from the spec: `rand`'s `SliceRandom::choose_multiple`
(main.rs:259-262), which returns `amount` elements of the slice sampled
without replacement.  The randomness of the generator is made explicit: the
caller supplies an arbitrary permutation `perm` of the candidate slice and
`choose_multiple` keeps its first `amount` elements. -/
def choose_multiple (perm : List Nat) (amount : Nat) : List Nat :=
  perm.take amount

/-- `let candidate_keys: Vec<u32> = (0..max_keys).collect()` (main.rs:258). -/
def candidate_keys (max_keys : Nat) : List Nat :=
  List.range max_keys

/-- C2: for `1 ≤ k ≤ 2^H`, the leaf sampler — `choose_multiple` over the
candidate list `0..2^H`, run with any permutation of that list — returns
exactly `k` distinct integers, each in `[0, 2^H)`. -/
theorem sampler_spec (H k : Nat) (perm : List Nat)
    (hperm : perm.Perm (candidate_keys (2 ^ H))) (hk1 : 1 ≤ k) (hk2 : k ≤ 2 ^ H) :
    (choose_multiple perm k).length = k ∧ (choose_multiple perm k).Nodup ∧
      ∀ x ∈ choose_multiple perm k, x < 2 ^ H := by
  have hlen : perm.length = 2 ^ H := by
    simpa [candidate_keys] using hperm.length_eq
  have hnd : perm.Nodup := hperm.nodup_iff.mpr (by simp [candidate_keys, List.nodup_range])
  refine ⟨?_, ?_, ?_⟩
  · simp [choose_multiple, hlen, Nat.min_eq_left hk2]
  · exact hnd.sublist (List.take_sublist k perm)
  · intro x hx
    have hxp : x ∈ perm := List.mem_of_mem_take hx
    have : x ∈ candidate_keys (2 ^ H) := hperm.mem_iff.mp hxp
    simpa [candidate_keys, List.mem_range] using this

/-- Witness for `sampler_spec` with `H = 5`, `k = 3` and the identity
permutation of the candidate list. -/
theorem sampler_spec_witness :
    (choose_multiple (candidate_keys (2 ^ 5)) 3).length = 3 ∧
      (choose_multiple (candidate_keys (2 ^ 5)) 3).Nodup ∧
      ∀ x ∈ choose_multiple (candidate_keys (2 ^ 5)) 3, x < 2 ^ 5 :=
  sampler_spec 5 3 (candidate_keys (2 ^ 5)) (List.Perm.refl _) (by decide) (by decide)

/-- `struct LmsTest` of the generator (main.rs:29-32): one test vector,
holding the expected verification outcome and the serialized signature. -/
structure LmsTest where
  test_passed : Bool
  signature : List Nat
  deriving DecidableEq, Repr

/-- The result of `lms_hss::get_lmots_parameters`; only the chain count `p`
is consumed by the generator (main.rs:315, 322). -/
structure LmotsParameter where
  p : Nat
  deriving DecidableEq, Repr

/-- The key-tree handle returned by `lms_hss::create_lms_tree`: the fields the
generator reads are the base leaf offset `q` and the per-leaf private keys
(main.rs:272, 277). -/
structure LmsTreeModel (K : Type) where
  q : Nat
  private_keys : List K

/-- The external `lms_hss` signing/verification service (spec §6), kept
abstract: every theorem about `main` quantifies over all services with this
interface.  `Option` models the `Result` of each fallible operation. -/
structure ServiceModel (K PK S : Type) where
  create_lms_tree : Nat → LmsAlgorithmType → LmotsAlgorithmType → Option (PK × LmsTreeModel K)
  lms_sign_message : LmotsAlgorithmType → LmsAlgorithmType → List Nat → K → Nat → LmsTreeModel K → Option S
  verify_lms_signature : List Nat → PK → S → Option Bool
  serialize_signature : S → List Nat
  serialize_public_key : PK → List Nat
  get_lmots_parameters : LmotsAlgorithmType → Option LmotsParameter

/-- Observable side effects of a run: Service calls and output-file creation.
A `signCall` records whether the Service returned a signature; a `verifyCall`
records the Service's answer. -/
inductive Event where
  | createTree (n : Nat) (lms : LmsAlgorithmType) (ots : LmotsAlgorithmType)
  | signCall (msg : List Nat) (q : Nat) (ok : Bool)
  | verifyCall (msg : List Nat) (result : Option Bool)
  | fileCreate (filename : String)
  deriving DecidableEq, Repr

/-- Result of a run of `main`: an early return with a configuration-error
message, a fatal panic (`unwrap` / `assert!` failure), or success carrying
the assembled test vectors and the emitted file content. -/
inductive Outcome where
  | configError (msg : String)
  | fatal
  | success (tests : List LmsTest) (output : String)
  deriving DecidableEq, Repr

/-- `let message = "this is the message I want signed".as_bytes()`
(main.rs:256). -/
def message : List Nat :=
  "this is the message I want signed".toList.map Char.toNat

/-- Command-line arguments after parsing (main.rs:10-27). -/
structure Args where
  n : Nat
  w : Nat
  tree_height : Nat
  tests : Nat
  filename : String
  deriving DecidableEq, Repr

/-- The private-key indexing `lms_tree.private_keys[the_q_to_use as usize]`
performed by both signing loops, where `the_q_to_use = lms_tree.q + offset_q`
(main.rs:272, 277, 295, 300); `none` models the out-of-bounds panic. -/
def privateKeyAt {K : Type} (tree : LmsTreeModel K) (offset_q : Nat) : Option K :=
  tree.private_keys[tree.q + offset_q]?

/-- One iteration of the `N = 32` signing loop (main.rs:271-288): index the
private-key list at `tree.q + offset_q` (a panic if out of bounds), call
`Sign`, and build the test vector.  No self-verification is performed. -/
def signLeaf32 {K PK S : Type} (svc : ServiceModel K PK S) (ots : LmotsAlgorithmType)
    (lms : LmsAlgorithmType) (msg : List Nat) (tree : LmsTreeModel K) (offset_q : Nat) :
    Option LmsTest × List Event :=
  let the_q_to_use := tree.q + offset_q
  match privateKeyAt tree offset_q with
  | none => (none, [])
  | some sk =>
    match svc.lms_sign_message ots lms msg sk the_q_to_use tree with
    | none => (none, [Event.signCall msg the_q_to_use false])
    | some sig =>
        (some ⟨true, svc.serialize_signature sig⟩, [Event.signCall msg the_q_to_use true])

/-- One iteration of the `N = 24` signing loop (main.rs:294-313): as
`signLeaf32`, but additionally `Verify` the produced signature and
`assert!` the result (main.rs:305-306). -/
def signLeaf24 {K PK S : Type} (svc : ServiceModel K PK S) (ots : LmotsAlgorithmType)
    (lms : LmsAlgorithmType) (msg : List Nat) (pk : PK) (tree : LmsTreeModel K)
    (offset_q : Nat) : Option LmsTest × List Event :=
  let the_q_to_use := tree.q + offset_q
  match privateKeyAt tree offset_q with
  | none => (none, [])
  | some sk =>
    match svc.lms_sign_message ots lms msg sk the_q_to_use tree with
    | none => (none, [Event.signCall msg the_q_to_use false])
    | some sig =>
      match svc.verify_lms_signature msg pk sig with
      | none =>
          (none, [Event.signCall msg the_q_to_use true, Event.verifyCall msg none])
      | some false =>
          (none, [Event.signCall msg the_q_to_use true, Event.verifyCall msg (some false)])
      | some true =>
          (some ⟨true, svc.serialize_signature sig⟩,
            [Event.signCall msg the_q_to_use true, Event.verifyCall msg (some true)])

/-- The `for offset_q in chosen_qs` loop, abstracted over the per-leaf body:
stops at the first fatal leaf, otherwise collects one vector per leaf in
order. -/
def signLoop (leaf : Nat → Option LmsTest × List Event) :
    List Nat → Option (List LmsTest) × List Event
  | [] => (some [], [])
  | q :: qs =>
    match leaf q with
    | (none, evs) => (none, evs)
    | (some t, evs) =>
      match signLoop leaf qs with
      | (none, evs2) => (none, evs ++ evs2)
      | (some ts, evs2) => (some (t :: ts), evs ++ evs2)

/-- `BOILERPLATE_1` (main.rs:34-59), the fixed header of the emitted file. -/
def BOILERPLATE_1 : String :=
  "/*++\n\nLicensed under the Apache-2.0 license.\n\nAbstract:\n\n    File contains test cases for LMS signature verification. This file is machine generated.\n\n--*/\n\n#![no_std]\n#![no_main]\n\nuse caliptra_drivers::\x7bLms, LmsResult, Sha256\x7d;\nuse caliptra_lms_types::\x7bLmsPublicKey, LmsSignature\x7d;\nuse caliptra_registers::sha256::Sha256Reg;\nuse caliptra_test_harness::test_suite;\n\nstruct LmsTest<\x27a> \x7b\n    test_passed: bool,\n    signature: &\x27a [u8],\n\x7d\n\nfn test_lms_random_suite() \x7b\n    let mut sha256 = unsafe \x7b Sha256::new(Sha256Reg::new()) \x7d;\n    "

/-- `BOILER_PLATE2` (main.rs:61-88), the fixed footer of the emitted file. -/
def BOILER_PLATE2 : String :=
  "\n        assert!(head.is_empty());\n        let lms_sig = thing2[0];\n        let verify_result = Lms::default().verify_lms_signature_generic(\n            &mut sha256,\n            &MESSAGE,\n            &lms_public_key,\n            &lms_sig,\n        );\n        if t.test_passed \x7b\n            // if the test is supposed to pass then we better have no errors and a successful verification\n            let result = verify_result.unwrap();\n            assert_eq!(result, LmsResult::Success)\n        \x7d else \x7b\n            // if the test is supposed to fail it could be for a number of reasons that could raise a variety of errors\n            // if the verification didn\x27t error, then extract the LMS result and ensure it is a failed verification\n            if verify_result.is_ok() \x7b\n                let result = verify_result.unwrap();\n                assert_eq!(result, LmsResult::SigVerifyFailed)\n            \x7d\n        \x7d\n    \x7d\n\x7d\n\ntest_suite! \x7b\n    test_lms_random_suite,\n\x7d\n"

/-- Rust's `Debug` rendering of a byte slice, `[b0, b1, ...]`, as used by the
`{:?}` format placeholders in `write_test_file`. -/
def rustDebugList (xs : List Nat) : String :=
  "[" ++ String.intercalate ", " (xs.map toString) ++ "]"

/-- Rust's `Display` rendering of a `bool`. -/
def rustBool (b : Bool) : String :=
  if b then "true" else "false"

/-- The line emitted for one test vector (main.rs:132-138). -/
def testLine (test : LmsTest) : String :=
  "\t\tLmsTest\x7b test_passed: " ++ rustBool test.test_passed ++ ", signature: &"
    ++ rustDebugList test.signature ++ "\x7d,\n"

/-- `write_test_file` (main.rs:90-155): the content of the emitted file, one
`++` per `write_all` call, in the order the source performs them.  File
creation itself is modelled as the `fileCreate` event in `main`. -/
def write_test_file (msg : List Nat) (public_key : List Nat) (tests : List LmsTest)
    (n : Nat) (p : Nat) (height : Nat) : String :=
  BOILERPLATE_1
    ++ ("\tconst MESSAGE :[u8; " ++ toString msg.length ++ "] = " ++ rustDebugList msg ++ ";\n")
    ++ ("\tconst PUBLIC_KEY_BYTES: [u8; " ++ toString public_key.length ++ "] = "
        ++ rustDebugList public_key ++ ";\n")
    ++ "\tlet (head, thing1, _tail): (&[u8], &[LmsPublicKey<"
    ++ toString (n / 4)
    ++ ">], &[u8]) = unsafe \x7b PUBLIC_KEY_BYTES.align_to::<LmsPublicKey<"
    ++ toString (n / 4)
    ++ ">>() \x7d;\n    \tassert!(head.is_empty());\n    \tlet lms_public_key = thing1[0];\n"
    ++ ("\tconst TESTS: [LmsTest; " ++ toString tests.length ++ "] = [\n")
    ++ String.join (tests.map testLine)
    ++ "\t];\n"
    ++ "\tfor t in TESTS \x7b\n        let (head, thing2, _tail): (&[u8], &[LmsSignature<"
    ++ (toString (n / 4) ++ ", " ++ toString p ++ ", " ++ toString height)
    ++ ">], &[u8]) =\n            unsafe \x7b t.signature.align_to::<LmsSignature<"
    ++ (toString (n / 4) ++ ", " ++ toString p ++ ", " ++ toString height)
    ++ ">>() \x7d;\n"
    ++ BOILER_PLATE2

/-- The per-size branch of `main` (main.rs:266-314): build the tree once,
then run the signing loop — with self-verification for `N = 24`, without for
`N = 32`.  Returns the serialized public key and the vectors, or `none` on a
panic, together with the Service-call events. -/
def runBranch {K PK S : Type} (svc : ServiceModel K PK S) (the_lms_type : LmsAlgorithmType)
    (the_ots_type : LmotsAlgorithmType) (n : Nat) (chosen_qs : List Nat) :
    Option (List Nat × List LmsTest) × List Event :=
  if n = 32 then
    match svc.create_lms_tree 32 the_lms_type the_ots_type with
    | none => (none, [Event.createTree 32 the_lms_type the_ots_type])
    | some (lms_public_key, lms_tree) =>
      match signLoop (signLeaf32 svc the_ots_type the_lms_type message lms_tree) chosen_qs with
      | (none, evs) => (none, Event.createTree 32 the_lms_type the_ots_type :: evs)
      | (some ts, evs) =>
          (some (svc.serialize_public_key lms_public_key, ts),
            Event.createTree 32 the_lms_type the_ots_type :: evs)
  else
    match svc.create_lms_tree 24 the_lms_type the_ots_type with
    | none => (none, [Event.createTree 24 the_lms_type the_ots_type])
    | some (lms_public_key, lms_tree) =>
      match signLoop
          (signLeaf24 svc the_ots_type the_lms_type message lms_public_key lms_tree)
          chosen_qs with
      | (none, evs) => (none, Event.createTree 24 the_lms_type the_ots_type :: evs)
      | (some ts, evs) =>
          (some (svc.serialize_public_key lms_public_key, ts),
            Event.createTree 24 the_lms_type the_ots_type :: evs)

/-- The tail of `main` (main.rs:315-324): fetch the LMOTS parameters and emit
the file — reached only with the fully assembled fixture in memory; a panic
anywhere earlier yields `fatal` with no `fileCreate` event. -/
def emitStage {K PK S : Type} (svc : ServiceModel K PK S) (args : Args)
    (the_ots_type : LmotsAlgorithmType)
    (branch : Option (List Nat × List LmsTest) × List Event) : Outcome × List Event :=
  match branch with
  | (none, evs) => (.fatal, evs)
  | (some (serial_public_key, lms_tests), evs) =>
    match svc.get_lmots_parameters the_ots_type with
    | none => (.fatal, evs)
    | some params =>
      (.success lms_tests
        (write_test_file message serial_public_key lms_tests args.n params.p
          args.tree_height),
        evs ++ [Event.fileCreate args.filename])

/-- Embeds `main` (main.rs:157-325); named `runMain` because Lean reserves
`main` for program entry points: validation, parameter resolution, the
`tests ≤ 2^H` bound, leaf sampling, then `runBranch` and `emitStage`.
The process-wide random generator is made explicit as `perm`, the order in
which `choose_multiple` would draw the candidate leaves. -/
def runMain {K PK S : Type} (svc : ServiceModel K PK S) (perm : List Nat) (args : Args) :
    Outcome × List Event :=
  if valid_height args.tree_height = false then
    (.configError ("Invalid tree height: " ++ toString args.tree_height
      ++ " expected one of 5, 10, 15, 20"), [])
  else if valid_n args.n = false then
    (.configError ("Invalid N: " ++ toString args.n ++ " expected one of 32 or 24"), [])
  else if valid_w args.w = false then
    (.configError ("Invalid W: " ++ toString args.w ++ " expected one of 1, 2, 4, 8"), [])
  else if args.tests < 1 ∨ args.tests > 16 then
    (.configError ("Invalid number of tests: " ++ toString args.tests
      ++ " expected a number between 1 and 16"), [])
  else
    let resolved := resolveTypes args.n args.w args.tree_height
    let max_keys := 2 ^ args.tree_height
    if args.tests > max_keys then
      (.configError ("Can\x27t create " ++ toString args.tests
        ++ " tests with a tree height of " ++ toString args.tree_height), [])
    else
      emitStage svc args resolved.2
        (runBranch svc resolved.1 resolved.2 args.n (choose_multiple perm args.tests))

/-- A concrete instance of the Service interface, used to evaluate `main` in
witnesses: a tree with base offset 0 and 32 leaves, signing and verification
always succeeding. -/
def trivialService : ServiceModel Nat Nat Nat where
  create_lms_tree := fun _ _ _ => some (0, ⟨0, List.replicate 32 0⟩)
  lms_sign_message := fun _ _ _ _ _ _ => some 0
  verify_lms_signature := fun _ _ _ => some true
  serialize_signature := fun _ => [0]
  serialize_public_key := fun _ => [0]
  get_lmots_parameters := fun _ => some ⟨34⟩

/-- `true` when the event is a `Verify` call. -/
def Event.isVerify : Event → Bool
  | Event.verifyCall _ _ => true
  | _ => false

/-- `true` when the event is creation of the output file. -/
def Event.isFileCreate : Event → Bool
  | Event.fileCreate _ => true
  | _ => false

/-- `true` when every `Sign` call that produced a signature is immediately
followed by a `Verify` call. -/
def eachSignVerified : List Event → Bool
  | [] => true
  | Event.signCall _ _ true :: rest =>
    (match rest with
     | Event.verifyCall _ _ :: _ => eachSignVerified rest
     | _ => false)
  | _ :: rest => eachSignVerified rest

/-- Case analysis of one `N = 32` loop iteration: it either panics with no
events, panics after a failed `Sign`, or yields a passing vector after a
successful `Sign` — never calling `Verify`. -/
theorem signLeaf32_cases {K PK S : Type} (svc : ServiceModel K PK S)
    (ots : LmotsAlgorithmType) (lms : LmsAlgorithmType) (msg : List Nat)
    (tree : LmsTreeModel K) (q : Nat) :
    signLeaf32 svc ots lms msg tree q = (none, []) ∨
    signLeaf32 svc ots lms msg tree q = (none, [Event.signCall msg (tree.q + q) false]) ∨
    ∃ t, t.test_passed = true ∧
      signLeaf32 svc ots lms msg tree q = (some t, [Event.signCall msg (tree.q + q) true]) := by
  rcases h1 : privateKeyAt tree q with _ | sk
  · left; simp [signLeaf32, h1]
  · rcases h2 : svc.lms_sign_message ots lms msg sk (tree.q + q) tree with _ | sig
    · right; left; simp [signLeaf32, h1, h2]
    · right; right
      exact ⟨⟨true, svc.serialize_signature sig⟩, rfl, by simp [signLeaf32, h1, h2]⟩

/-- Case analysis of one `N = 24` loop iteration: as for `N = 32`, but a
successful `Sign` is always followed by a `Verify` call, and the vector is
produced only when `Verify` answered `true`. -/
theorem signLeaf24_cases {K PK S : Type} (svc : ServiceModel K PK S)
    (ots : LmotsAlgorithmType) (lms : LmsAlgorithmType) (msg : List Nat) (pk : PK)
    (tree : LmsTreeModel K) (q : Nat) :
    signLeaf24 svc ots lms msg pk tree q = (none, []) ∨
    signLeaf24 svc ots lms msg pk tree q = (none, [Event.signCall msg (tree.q + q) false]) ∨
    (∃ r, r ≠ some true ∧ signLeaf24 svc ots lms msg pk tree q =
      (none, [Event.signCall msg (tree.q + q) true, Event.verifyCall msg r])) ∨
    (∃ t, t.test_passed = true ∧ signLeaf24 svc ots lms msg pk tree q =
      (some t, [Event.signCall msg (tree.q + q) true, Event.verifyCall msg (some true)])) := by
  rcases h1 : privateKeyAt tree q with _ | sk
  · left; simp [signLeaf24, h1]
  · rcases h2 : svc.lms_sign_message ots lms msg sk (tree.q + q) tree with _ | sig
    · right; left; simp [signLeaf24, h1, h2]
    · rcases h3 : svc.verify_lms_signature msg pk sig with _ | b
      · right; right; left
        exact ⟨none, by simp, by simp [signLeaf24, h1, h2, h3]⟩
      · cases b
        · right; right; left
          exact ⟨some false, by simp, by simp [signLeaf24, h1, h2, h3]⟩
        · right; right; right
          exact ⟨⟨true, svc.serialize_signature sig⟩, rfl, by simp [signLeaf24, h1, h2, h3]⟩

/-- Every event produced by `signLoop` comes from some iteration of the
per-leaf body. -/
theorem signLoop_events {P : Event → Prop} (leaf : Nat → Option LmsTest × List Event)
    (hleaf : ∀ q e, e ∈ (leaf q).2 → P e) :
    ∀ qs e, e ∈ (signLoop leaf qs).2 → P e := by
  intro qs
  induction qs with
  | nil => intro e he; simp [signLoop] at he
  | cons q qs ih =>
    intro e he
    rcases hl : leaf q with ⟨t, evs⟩
    cases t with
    | none =>
      simp only [signLoop, hl] at he
      exact hleaf q e (hl ▸ he)
    | some t0 =>
      rcases hrec : signLoop leaf qs with ⟨ts, evs2⟩
      cases ts with
      | none =>
        simp only [signLoop, hl, hrec, List.mem_append] at he
        rcases he with he | he
        · exact hleaf q e (by rw [hl]; exact he)
        · exact ih e (by rw [hrec]; exact he)
      | some ts0 =>
        simp only [signLoop, hl, hrec, List.mem_append] at he
        rcases he with he | he
        · exact hleaf q e (by rw [hl]; exact he)
        · exact ih e (by rw [hrec]; exact he)

/-- The per-leaf collection underlying both signing loops: one vector per
leaf, in order, `none` as soon as a leaf is fatal. -/
def collectVectors (leaf : Nat → Option LmsTest) : List Nat → Option (List LmsTest)
  | [] => some []
  | q :: qs =>
    match leaf q with
    | none => none
    | some t =>
      match collectVectors leaf qs with
      | none => none
      | some ts => some (t :: ts)

/-- The vectors collected by `signLoop` are exactly the per-leaf results,
one per sampled leaf, in sampler order. -/
theorem signLoop_eq_collect (leaf : Nat → Option LmsTest × List Event) :
    ∀ qs : List Nat, (signLoop leaf qs).1 = collectVectors (fun q => (leaf q).1) qs := by
  intro qs
  induction qs with
  | nil => simp [signLoop, collectVectors]
  | cons q qs ih =>
    rcases hl : leaf q with ⟨t, evs⟩
    cases t with
    | none => simp [signLoop, collectVectors, hl]
    | some t0 =>
      rcases hrec : signLoop leaf qs with ⟨ts, evs2⟩
      cases ts with
      | none =>
        simp only [signLoop, collectVectors, hl, hrec]
        rw [← ih, hrec]
      | some ts0 =>
        simp only [signLoop, collectVectors, hl, hrec]
        rw [← ih, hrec]

/-- `collectVectors` succeeds with one vector per leaf. -/
theorem collectVectors_length (leaf : Nat → Option LmsTest) :
    ∀ (qs : List Nat) (r : List LmsTest), collectVectors leaf qs = some r →
      r.length = qs.length := by
  intro qs
  induction qs with
  | nil => intro r hr; simp [collectVectors] at hr; simp [← hr]
  | cons q qs ih =>
    intro r hr
    rcases ha : leaf q with _ | t
    · simp [collectVectors, ha] at hr
    · rcases hl : collectVectors leaf qs with _ | r0
      · simp [collectVectors, ha, hl] at hr
      · simp only [collectVectors, ha, hl] at hr
        cases hr
        simp [ih r0 hl]

/-- Every vector collected by `collectVectors` comes from some leaf. -/
theorem collectVectors_mem (leaf : Nat → Option LmsTest) :
    ∀ (qs : List Nat) (r : List LmsTest), collectVectors leaf qs = some r →
      ∀ t ∈ r, ∃ q ∈ qs, leaf q = some t := by
  intro qs
  induction qs with
  | nil =>
    intro r hr
    simp [collectVectors] at hr
    subst hr
    simp
  | cons q qs ih =>
    intro r hr
    rcases ha : leaf q with _ | t0
    · simp [collectVectors, ha] at hr
    · rcases hl : collectVectors leaf qs with _ | r0
      · simp [collectVectors, ha, hl] at hr
      · simp only [collectVectors, ha, hl] at hr
        cases hr
        intro t ht
        rcases List.mem_cons.mp ht with rfl | ht0
        · exact ⟨q, List.mem_cons_self q qs, ha⟩
        · rcases ih r0 hl t ht0 with ⟨q1, hq1, hq2⟩
          exact ⟨q1, List.mem_cons_of_mem q hq1, hq2⟩

/-- Each failed configuration check makes `runMain` return a
configuration-error message with an empty event trace. -/
theorem runMain_config_reject {K PK S : Type} (svc : ServiceModel K PK S)
    (perm : List Nat) (args : Args)
    (h : valid_height args.tree_height = false ∨ valid_n args.n = false ∨
      valid_w args.w = false ∨ args.tests < 1 ∨ args.tests > 16 ∨
      args.tests > 2 ^ args.tree_height) :
    ∃ m, runMain svc perm args = (Outcome.configError m, []) := by
  cases hh : valid_height args.tree_height with
  | false =>
    exact ⟨"Invalid tree height: " ++ toString args.tree_height
      ++ " expected one of 5, 10, 15, 20", by simp [runMain, hh]⟩
  | true =>
    cases hn : valid_n args.n with
    | false =>
      exact ⟨"Invalid N: " ++ toString args.n ++ " expected one of 32 or 24",
        by simp [runMain, hh, hn]⟩
    | true =>
      cases hw : valid_w args.w with
      | false =>
        exact ⟨"Invalid W: " ++ toString args.w ++ " expected one of 1, 2, 4, 8",
          by simp [runMain, hh, hn, hw]⟩
      | true =>
        by_cases ht : args.tests < 1 ∨ args.tests > 16
        · have ht2 : args.tests = 0 ∨ 16 < args.tests := by omega
          exact ⟨"Invalid number of tests: " ++ toString args.tests
            ++ " expected a number between 1 and 16", by simp [runMain, hh, hn, hw, ht2]⟩
        · have ht2 : ¬(args.tests = 0 ∨ 16 < args.tests) := by omega
          have hmax : 2 ^ args.tree_height < args.tests := by
            rcases h with h | h | h | h | h | h
            · rw [hh] at h; cases h
            · rw [hn] at h; cases h
            · rw [hw] at h; cases h
            · exact absurd (Or.inl h) ht
            · exact absurd (Or.inr h) ht
            · exact h
          exact ⟨"Can\x27t create " ++ toString args.tests
            ++ " tests with a tree height of " ++ toString args.tree_height,
            by simp [runMain, hh, hn, hw, ht2, hmax]⟩

/-- When every configuration check passes, `runMain` is the branch stage
followed by the emit stage. -/
theorem runMain_valid_eq {K PK S : Type} (svc : ServiceModel K PK S)
    (perm : List Nat) (args : Args)
    (h1 : valid_height args.tree_height = true) (h2 : valid_n args.n = true)
    (h3 : valid_w args.w = true) (h4 : ¬(args.tests < 1 ∨ args.tests > 16))
    (h5 : ¬(args.tests > 2 ^ args.tree_height)) :
    runMain svc perm args =
      emitStage svc args (resolveTypes args.n args.w args.tree_height).2
        (runBranch svc (resolveTypes args.n args.w args.tree_height).1
          (resolveTypes args.n args.w args.tree_height).2 args.n
          (choose_multiple perm args.tests)) := by
  have h42 : ¬(args.tests = 0 ∨ 16 < args.tests) := by omega
  have h52 : ¬(2 ^ args.tree_height < args.tests) := by omega
  simp [runMain, h1, h2, h3, h42, h52]

/-- A run that ends in success passed every configuration check. -/
theorem runMain_success_valid {K PK S : Type} (svc : ServiceModel K PK S)
    (perm : List Nat) (args : Args) (ts : List LmsTest) (out : String) (evs : List Event)
    (h : runMain svc perm args = (Outcome.success ts out, evs)) :
    valid_height args.tree_height = true ∧ valid_n args.n = true ∧
      valid_w args.w = true ∧ ¬(args.tests < 1 ∨ args.tests > 16) ∧
      ¬(args.tests > 2 ^ args.tree_height) := by
  have key : ¬(valid_height args.tree_height = false ∨ valid_n args.n = false ∨
      valid_w args.w = false ∨ args.tests < 1 ∨ args.tests > 16 ∨
      args.tests > 2 ^ args.tree_height) := by
    intro hc
    rcases runMain_config_reject svc perm args hc with ⟨m, hm⟩
    rw [h] at hm
    simp at hm
  refine ⟨?_, ?_, ?_, ?_, ?_⟩
  · cases hh : valid_height args.tree_height
    · exact (key (Or.inl hh)).elim
    · rfl
  · cases hh : valid_n args.n
    · exact (key (Or.inr (Or.inl hh))).elim
    · rfl
  · cases hh : valid_w args.w
    · exact (key (Or.inr (Or.inr (Or.inl hh)))).elim
    · rfl
  · intro hc
    rcases hc with hc | hc
    · exact key (Or.inr (Or.inr (Or.inr (Or.inl hc))))
    · exact key (Or.inr (Or.inr (Or.inr (Or.inr (Or.inl hc)))))
  · intro hc
    exact key (Or.inr (Or.inr (Or.inr (Or.inr (Or.inr hc)))))

/-- The emit stage never reports a configuration error. -/
theorem emitStage_ne_configError {K PK S : Type} (svc : ServiceModel K PK S) (args : Args)
    (ots : LmotsAlgorithmType) (br : Option (List Nat × List LmsTest) × List Event)
    (m : String) : (emitStage svc args ots br).1 ≠ Outcome.configError m := by
  rcases br with ⟨_ | ⟨spk, ts⟩, evs⟩
  · simp [emitStage]
  · rcases hp : svc.get_lmots_parameters ots with _ | params
    · simp [emitStage, hp]
    · simp [emitStage, hp]

/-- Inversion of a successful emit stage: the branch succeeded, the LMOTS
parameters were found, the output is `write_test_file` of the assembled
fixture, and the `fileCreate` event is last. -/
theorem emitStage_success_inv {K PK S : Type} (svc : ServiceModel K PK S) (args : Args)
    (ots : LmotsAlgorithmType) (br : Option (List Nat × List LmsTest) × List Event)
    (ts : List LmsTest) (out : String) (evs : List Event)
    (h : emitStage svc args ots br = (Outcome.success ts out, evs)) :
    ∃ spk params, br.1 = some (spk, ts) ∧ svc.get_lmots_parameters ots = some params ∧
      out = write_test_file message spk ts args.n params.p args.tree_height ∧
      evs = br.2 ++ [Event.fileCreate args.filename] := by
  rcases br with ⟨_ | ⟨spk, ts0⟩, evs0⟩
  · simp [emitStage] at h
  · rcases hp : svc.get_lmots_parameters ots with _ | params
    · simp [emitStage, hp] at h
    · simp only [emitStage, hp] at h
      rw [Prod.mk.injEq] at h
      obtain ⟨ha, hb⟩ := h
      injection ha with hts hout
      subst hts
      subst hout
      exact ⟨spk, params, rfl, rfl, rfl, hb.symm⟩

/-- A fatal emit stage keeps the branch events unchanged: no file is
created. -/
theorem emitStage_fatal_inv {K PK S : Type} (svc : ServiceModel K PK S) (args : Args)
    (ots : LmotsAlgorithmType) (br : Option (List Nat × List LmsTest) × List Event)
    (evs : List Event) (h : emitStage svc args ots br = (Outcome.fatal, evs)) :
    evs = br.2 := by
  rcases br with ⟨_ | ⟨spk, ts0⟩, evs0⟩
  · simp only [emitStage] at h
    rw [Prod.mk.injEq] at h
    exact h.2.symm
  · rcases hp : svc.get_lmots_parameters ots with _ | params
    · simp only [emitStage, hp] at h
      rw [Prod.mk.injEq] at h
      exact h.2.symm
    · simp [emitStage, hp] at h

/-- Inversion of a successful branch stage: the tree was built once, the
signing loop produced the vectors, and the events are the `BuildTree` call
followed by the loop's events. -/
theorem runBranch_some_inv {K PK S : Type} (svc : ServiceModel K PK S)
    (lms : LmsAlgorithmType) (ots : LmotsAlgorithmType) (n : Nat) (qs : List Nat)
    (spk : List Nat) (ts : List LmsTest) (evs : List Event)
    (h : runBranch svc lms ots n qs = (some (spk, ts), evs)) :
    ∃ pk tree,
      svc.create_lms_tree (if n = 32 then 32 else 24) lms ots = some (pk, tree) ∧
      spk = svc.serialize_public_key pk ∧
      (if n = 32 then signLoop (signLeaf32 svc ots lms message tree) qs
        else signLoop (signLeaf24 svc ots lms message pk tree) qs).1 = some ts ∧
      evs = Event.createTree (if n = 32 then 32 else 24) lms ots ::
        (if n = 32 then signLoop (signLeaf32 svc ots lms message tree) qs
          else signLoop (signLeaf24 svc ots lms message pk tree) qs).2 := by
  by_cases hn : n = 32
  · subst hn
    rcases hc : svc.create_lms_tree 32 lms ots with _ | ⟨pk, tree⟩
    · simp [runBranch, hc] at h
    · rcases hl : signLoop (signLeaf32 svc ots lms message tree) qs with ⟨ts0, evs0⟩
      cases ts0 with
      | none => simp [runBranch, hc, hl] at h
      | some ts1 =>
        simp only [runBranch, if_pos rfl, if_true, hc, hl, Prod.mk.injEq,
          Option.some.injEq] at h
        obtain ⟨⟨ha1, ha2⟩, hb⟩ := h
        subst ha2
        refine ⟨pk, tree, ?_, ha1.symm, ?_, ?_⟩
        · simpa using hc
        · simp [hl]
        · simp [hl, ← hb]
  · rw [runBranch, if_neg hn] at h
    rcases hc : svc.create_lms_tree 24 lms ots with _ | ⟨pk, tree⟩
    · simp [hc] at h
    · rcases hl : signLoop (signLeaf24 svc ots lms message pk tree) qs with ⟨ts0, evs0⟩
      cases ts0 with
      | none => simp [hc, hl] at h
      | some ts1 =>
        simp only [hc, hl, Prod.mk.injEq, Option.some.injEq] at h
        obtain ⟨⟨ha1, ha2⟩, hb⟩ := h
        subst ha2
        refine ⟨pk, tree, ?_, ha1.symm, ?_, ?_⟩
        · simpa [hn] using hc
        · simp [hn, hl]
        · simp [hn, hl, ← hb]

/-- Every event of the branch stage is a `BuildTree` event or an event of a
loop iteration (of either per-size loop body). -/
theorem runBranch_events_all {K PK S : Type} {P : Event → Prop} (svc : ServiceModel K PK S)
    (lms : LmsAlgorithmType) (ots : LmotsAlgorithmType) (n : Nat) (qs : List Nat)
    (hcreate : ∀ nv l o, P (Event.createTree nv l o))
    (hleaf32 : ∀ tree q e, e ∈ (signLeaf32 svc ots lms message tree q).2 → P e)
    (hleaf24 : ∀ pk tree q e, e ∈ (signLeaf24 svc ots lms message pk tree q).2 → P e) :
    ∀ e ∈ (runBranch svc lms ots n qs).2, P e := by
  intro e he
  by_cases hn : n = 32
  · subst hn
    rcases hc : svc.create_lms_tree 32 lms ots with _ | ⟨pk, tree⟩
    · simp [runBranch, hc] at he
      rw [he]; exact hcreate _ _ _
    · rcases hl : signLoop (signLeaf32 svc ots lms message tree) qs with ⟨ts0, evs0⟩
      have hev : e ∈ Event.createTree 32 lms ots :: evs0 := by
        cases ts0 <;> simpa [runBranch, hc, hl] using he
      rcases List.mem_cons.mp hev with rfl | hev0
      · exact hcreate _ _ _
      · exact signLoop_events _ (fun q e he => hleaf32 tree q e he) qs e (by rw [hl]; exact hev0)
  · rw [runBranch, if_neg hn] at he
    rcases hc : svc.create_lms_tree 24 lms ots with _ | ⟨pk, tree⟩
    · simp [hc] at he
      rw [he]; exact hcreate _ _ _
    · rcases hl : signLoop (signLeaf24 svc ots lms message pk tree) qs with ⟨ts0, evs0⟩
      have hev : e ∈ Event.createTree 24 lms ots :: evs0 := by
        cases ts0 <;> simpa [hc, hl] using he
      rcases List.mem_cons.mp hev with rfl | hev0
      · exact hcreate _ _ _
      · exact signLoop_events _ (fun q e he => hleaf24 pk tree q e he) qs e (by rw [hl]; exact hev0)

/-- For `N = 32` the branch events come from `BuildTree` and the
verification-free loop body only. -/
theorem runBranch_events32 {K PK S : Type} {P : Event → Prop} (svc : ServiceModel K PK S)
    (lms : LmsAlgorithmType) (ots : LmotsAlgorithmType) (qs : List Nat)
    (hcreate : ∀ nv l o, P (Event.createTree nv l o))
    (hleaf32 : ∀ tree q e, e ∈ (signLeaf32 svc ots lms message tree q).2 → P e) :
    ∀ e ∈ (runBranch svc lms ots 32 qs).2, P e := by
  intro e he
  rcases hc : svc.create_lms_tree 32 lms ots with _ | ⟨pk, tree⟩
  · simp [runBranch, hc] at he
    rw [he]; exact hcreate _ _ _
  · rcases hl : signLoop (signLeaf32 svc ots lms message tree) qs with ⟨ts0, evs0⟩
    have hev : e ∈ Event.createTree 32 lms ots :: evs0 := by
      cases ts0 <;> simpa [runBranch, hc, hl] using he
    rcases List.mem_cons.mp hev with rfl | hev0
    · exact hcreate _ _ _
    · exact signLoop_events _ (fun q e he => hleaf32 tree q e he) qs e (by rw [hl]; exact hev0)

/-- Events of one `N = 32` iteration: never a `Verify` call, never file
creation, and any `Sign` call carries the loop's message. -/
theorem signLeaf32_events_prop {K PK S : Type} (svc : ServiceModel K PK S)
    (ots : LmotsAlgorithmType) (lms : LmsAlgorithmType) (msg : List Nat)
    (tree : LmsTreeModel K) (q : Nat) :
    ∀ e ∈ (signLeaf32 svc ots lms msg tree q).2,
      e.isVerify = false ∧ e.isFileCreate = false ∧
        ∀ m qq ok, e = Event.signCall m qq ok → m = msg := by
  rcases signLeaf32_cases svc ots lms msg tree q with h | h | ⟨t, ht, h⟩ <;>
    rw [h] <;> intro e he <;> simp at he
  all_goals
    subst he
    refine ⟨rfl, rfl, ?_⟩
    intro m qq ok hqq
    injection hqq with a b c
    exact a.symm

/-- Events of one `N = 24` iteration: never file creation, and any `Sign`
call carries the loop's message. -/
theorem signLeaf24_events_prop {K PK S : Type} (svc : ServiceModel K PK S)
    (ots : LmotsAlgorithmType) (lms : LmsAlgorithmType) (msg : List Nat) (pk : PK)
    (tree : LmsTreeModel K) (q : Nat) :
    ∀ e ∈ (signLeaf24 svc ots lms msg pk tree q).2,
      e.isFileCreate = false ∧ ∀ m qq ok, e = Event.signCall m qq ok → m = msg := by
  rcases signLeaf24_cases svc ots lms msg pk tree q with h | h | ⟨r, hr, h⟩ | ⟨t, ht, h⟩ <;>
    rw [h] <;> intro e he <;> simp at he
  · subst he
    refine ⟨rfl, ?_⟩
    intro m qq ok hqq
    injection hqq with a b c
    exact a.symm
  all_goals
    rcases he with he | he <;> subst he
    · refine ⟨rfl, ?_⟩
      intro m qq ok hqq
      injection hqq with a b c
      exact a.symm
    · exact ⟨rfl, by intro m qq ok hqq; cases hqq⟩

/-- `eachSignVerified` skips a `BuildTree` event. -/
theorem eachSignVerified_createTree (n : Nat) (l : LmsAlgorithmType)
    (o : LmotsAlgorithmType) (rest : List Event) :
    eachSignVerified (Event.createTree n l o :: rest) = eachSignVerified rest := rfl

/-- `eachSignVerified` skips a `fileCreate` event. -/
theorem eachSignVerified_fileCreate (f : String) (rest : List Event) :
    eachSignVerified (Event.fileCreate f :: rest) = eachSignVerified rest := rfl

/-- `eachSignVerified` skips a `Verify` event. -/
theorem eachSignVerified_verify (m : List Nat) (r : Option Bool) (rest : List Event) :
    eachSignVerified (Event.verifyCall m r :: rest) = eachSignVerified rest := rfl

/-- `eachSignVerified` skips a failed `Sign` event. -/
theorem eachSignVerified_sign_false (m : List Nat) (q : Nat) (rest : List Event) :
    eachSignVerified (Event.signCall m q false :: rest) = eachSignVerified rest := rfl

/-- A successful `Sign` event immediately followed by a `Verify` event
satisfies the adjacency check. -/
theorem eachSignVerified_sign_verify (m : List Nat) (q : Nat) (m2 : List Nat)
    (r : Option Bool) (rest : List Event) :
    eachSignVerified (Event.signCall m q true :: Event.verifyCall m2 r :: rest) =
      eachSignVerified rest := rfl

/-- In the `N = 24` loop every successful `Sign` call is immediately followed
by a `Verify` call, whatever trailing events are appended. -/
theorem signLoop24_eachSignVerified {K PK S : Type} (svc : ServiceModel K PK S)
    (ots : LmotsAlgorithmType) (lms : LmsAlgorithmType) (msg : List Nat) (pk : PK)
    (tree : LmsTreeModel K) :
    ∀ (qs : List Nat) (rest : List Event), eachSignVerified rest = true →
      eachSignVerified
        ((signLoop (signLeaf24 svc ots lms msg pk tree) qs).2 ++ rest) = true := by
  intro qs
  induction qs with
  | nil => intro rest hrest; simpa [signLoop]
  | cons q qs ih =>
    intro rest hrest
    rcases signLeaf24_cases svc ots lms msg pk tree q with h | h | ⟨r, hr, h⟩ | ⟨t, ht, h⟩
    · simpa [signLoop, h]
    · simpa [signLoop, h, eachSignVerified_sign_false]
    · simpa [signLoop, h, eachSignVerified_sign_verify]
    · rcases hrec : signLoop (signLeaf24 svc ots lms msg pk tree) qs with ⟨ts0, evs2⟩
      have hmain : eachSignVerified (evs2 ++ rest) = true := by
        have := ih rest hrest
        rw [hrec] at this
        exact this
      cases ts0 with
      | none =>
        simp only [signLoop, h, hrec, List.cons_append, List.append_assoc]
        rw [eachSignVerified_sign_verify]
        exact hmain
      | some ts1 =>
        simp only [signLoop, h, hrec, List.cons_append, List.append_assoc]
        rw [eachSignVerified_sign_verify]
        exact hmain

/-- If the `N = 24` loop completes, every `Verify` call it made answered
`some true`. -/
theorem signLoop24_verify_true {K PK S : Type} (svc : ServiceModel K PK S)
    (ots : LmotsAlgorithmType) (lms : LmsAlgorithmType) (msg : List Nat) (pk : PK)
    (tree : LmsTreeModel K) :
    ∀ (qs : List Nat) (ts : List LmsTest),
      (signLoop (signLeaf24 svc ots lms msg pk tree) qs).1 = some ts →
      ∀ m r, Event.verifyCall m r ∈ (signLoop (signLeaf24 svc ots lms msg pk tree) qs).2 →
        r = some true := by
  intro qs
  induction qs with
  | nil => intro ts hts m r hm; simp [signLoop] at hm
  | cons q qs ih =>
    intro ts hts m r hm
    rcases signLeaf24_cases svc ots lms msg pk tree q with h | h | ⟨r0, hr0, h⟩ | ⟨t, ht, h⟩
    · simp [signLoop, h] at hts
    · simp [signLoop, h] at hts
    · simp [signLoop, h] at hts
    · rcases hrec : signLoop (signLeaf24 svc ots lms msg pk tree) qs with ⟨ts0, evs2⟩
      cases ts0 with
      | none => simp [signLoop, h, hrec] at hts
      | some ts1 =>
        simp only [signLoop, h, hrec, List.cons_append, List.nil_append] at hm
        rcases List.mem_cons.mp hm with hm0 | hm0
        · cases hm0
        · rcases List.mem_cons.mp hm0 with hm1 | hm1
          · injection hm1
          · have := ih ts1 (by rw [hrec]) m r (by rw [hrec]; exact hm1)
            exact this

/-- A vector produced by an `N = 32` iteration is marked passing. -/
theorem signLeaf32_some_passed {K PK S : Type} (svc : ServiceModel K PK S)
    (ots : LmotsAlgorithmType) (lms : LmsAlgorithmType) (msg : List Nat)
    (tree : LmsTreeModel K) (q : Nat) (t : LmsTest)
    (h : (signLeaf32 svc ots lms msg tree q).1 = some t) : t.test_passed = true := by
  rcases signLeaf32_cases svc ots lms msg tree q with hc | hc | ⟨t0, ht0, hc⟩ <;>
    rw [hc] at h <;> simp at h
  rw [← h]
  exact ht0

/-- A vector produced by an `N = 24` iteration is marked passing. -/
theorem signLeaf24_some_passed {K PK S : Type} (svc : ServiceModel K PK S)
    (ots : LmotsAlgorithmType) (lms : LmsAlgorithmType) (msg : List Nat) (pk : PK)
    (tree : LmsTreeModel K) (q : Nat) (t : LmsTest)
    (h : (signLeaf24 svc ots lms msg pk tree q).1 = some t) : t.test_passed = true := by
  rcases signLeaf24_cases svc ots lms msg pk tree q with hc | hc | ⟨r0, hr0, hc⟩ | ⟨t0, ht0, hc⟩ <;>
    rw [hc] at h <;> simp at h
  rw [← h]
  exact ht0

/-- In the whole `N = 24` branch, every successful `Sign` is immediately
followed by a `Verify` (with any trailing events appended). -/
theorem runBranch24_eachSignVerified {K PK S : Type} (svc : ServiceModel K PK S)
    (lms : LmsAlgorithmType) (ots : LmotsAlgorithmType) (qs : List Nat)
    (rest : List Event) (hrest : eachSignVerified rest = true) :
    eachSignVerified ((runBranch svc lms ots 24 qs).2 ++ rest) = true := by
  rw [runBranch, if_neg (by decide : ¬(24 = 32))]
  rcases hc : svc.create_lms_tree 24 lms ots with _ | ⟨pk, tree⟩
  · simpa [hc, eachSignVerified_createTree]
  · rcases hl : signLoop (signLeaf24 svc ots lms message pk tree) qs with ⟨ts0, evs0⟩
    have hloop : eachSignVerified (evs0 ++ rest) = true := by
      have := signLoop24_eachSignVerified svc ots lms message pk tree qs rest hrest
      rw [hl] at this
      exact this
    cases ts0 <;> simpa [hc, hl, eachSignVerified_createTree] using hloop

/-- If the `N = 24` branch assembled its vectors, every `Verify` call in its
trace answered `some true`. -/
theorem runBranch24_verify_true {K PK S : Type} (svc : ServiceModel K PK S)
    (lms : LmsAlgorithmType) (ots : LmotsAlgorithmType) (qs : List Nat)
    (pr : List Nat × List LmsTest)
    (hres : (runBranch svc lms ots 24 qs).1 = some pr) :
    ∀ m r, Event.verifyCall m r ∈ (runBranch svc lms ots 24 qs).2 → r = some true := by
  intro m r hm
  rw [runBranch, if_neg (by decide : ¬(24 = 32))] at hres hm
  rcases hc : svc.create_lms_tree 24 lms ots with _ | ⟨pk, tree⟩
  · simp [hc] at hres
  · rcases hl : signLoop (signLeaf24 svc ots lms message pk tree) qs with ⟨ts0, evs0⟩
    cases ts0 with
    | none => simp [hc, hl] at hres
    | some ts1 =>
      simp only [hc, hl] at hm
      have hm0 : Event.verifyCall m r ∈ Event.createTree 24 lms ots :: evs0 := by
        simpa using hm
      rcases List.mem_cons.mp hm0 with hx | hx
      · cases hx
      · exact signLoop24_verify_true svc ots lms message pk tree qs ts1
          (by rw [hl]) m r (by rw [hl]; exact hx)

/-- C3: in every run, for the `N = 24` variant each `Sign` call that produced
a signature is immediately followed by a `Verify` call on it, and any
`Verify` answer other than `true` makes the run abort with a fatal assertion
failure; for the `N = 32` variant no `Verify` call ever occurs. -/
theorem verify_asymmetry {K PK S : Type} (svc : ServiceModel K PK S) (perm : List Nat)
    (args : Args) :
    (args.n = 24 →
      eachSignVerified (runMain svc perm args).2 = true ∧
      (∀ m r, Event.verifyCall m r ∈ (runMain svc perm args).2 → r ≠ some true →
        (runMain svc perm args).1 = Outcome.fatal)) ∧
    (args.n = 32 → ∀ e ∈ (runMain svc perm args).2, e.isVerify = false) := by
  by_cases hv : valid_height args.tree_height = false ∨ valid_n args.n = false ∨
      valid_w args.w = false ∨ args.tests < 1 ∨ args.tests > 16 ∨
      args.tests > 2 ^ args.tree_height
  · obtain ⟨m, hm⟩ := runMain_config_reject svc perm args hv
    rw [hm]
    refine ⟨fun _ => ⟨rfl, ?_⟩, fun _ e he => ?_⟩
    · intro m0 r hmem
      simp at hmem
    · simp at he
  · push_neg at hv
    obtain ⟨hb1, hb2, hb3, hb4, hb5, hb6⟩ := hv
    have h1 : valid_height args.tree_height = true := by
      cases hx : valid_height args.tree_height
      · exact absurd hx hb1
      · rfl
    have h2 : valid_n args.n = true := by
      cases hx : valid_n args.n
      · exact absurd hx hb2
      · rfl
    have h3 : valid_w args.w = true := by
      cases hx : valid_w args.w
      · exact absurd hx hb3
      · rfl
    rw [runMain_valid_eq svc perm args h1 h2 h3 (by omega) (by omega)]
    constructor
    · intro hn24
      rw [hn24]
      rcases hE : emitStage svc args (resolveTypes 24 args.w args.tree_height).2
          (runBranch svc (resolveTypes 24 args.w args.tree_height).1
            (resolveTypes 24 args.w args.tree_height).2 24
            (choose_multiple perm args.tests)) with ⟨out, evs⟩
      cases out with
      | configError m0 =>
        exact absurd (by rw [hE] : (emitStage svc args _ _).1 = Outcome.configError m0)
          (emitStage_ne_configError svc args _ _ m0)
      | fatal =>
        have hevs := emitStage_fatal_inv svc args _ _ evs hE
        subst hevs
        refine ⟨?_, fun m0 r hmem hrne => rfl⟩
        have := runBranch24_eachSignVerified svc
          (resolveTypes 24 args.w args.tree_height).1
          (resolveTypes 24 args.w args.tree_height).2
          (choose_multiple perm args.tests) [] rfl
        simpa using this
      | success ts out0 =>
        obtain ⟨spk, params, hbr1, hp, hout, hevs⟩ :=
          emitStage_success_inv svc args _ _ ts out0 evs hE
        subst hevs
        constructor
        · exact runBranch24_eachSignVerified svc
            (resolveTypes 24 args.w args.tree_height).1
            (resolveTypes 24 args.w args.tree_height).2
            (choose_multiple perm args.tests) [Event.fileCreate args.filename] rfl
        · intro m0 r hmem hrne
          rcases List.mem_append.mp hmem with hx | hx
          · exact absurd (runBranch24_verify_true svc
              (resolveTypes 24 args.w args.tree_height).1
              (resolveTypes 24 args.w args.tree_height).2
              (choose_multiple perm args.tests) (spk, ts) hbr1 m0 r hx) hrne
          · simp at hx
    · intro hn32
      rw [hn32]
      rcases hE : emitStage svc args (resolveTypes 32 args.w args.tree_height).2
          (runBranch svc (resolveTypes 32 args.w args.tree_height).1
            (resolveTypes 32 args.w args.tree_height).2 32
            (choose_multiple perm args.tests)) with ⟨out, evs⟩
      have hbr : ∀ e ∈ (runBranch svc (resolveTypes 32 args.w args.tree_height).1
          (resolveTypes 32 args.w args.tree_height).2 32
          (choose_multiple perm args.tests)).2, e.isVerify = false := by
        refine runBranch_events32 svc _ _ _ (fun nv l o => rfl) ?_
        intro tree q e he
        exact (signLeaf32_events_prop svc _ _ message tree q e he).1
      cases out with
      | configError m0 =>
        exact absurd (by rw [hE] : (emitStage svc args _ _).1 = Outcome.configError m0)
          (emitStage_ne_configError svc args _ _ m0)
      | fatal =>
        have hevs := emitStage_fatal_inv svc args _ _ evs hE
        subst hevs
        exact hbr
      | success ts out0 =>
        obtain ⟨spk, params, hbr1, hp, hout, hevs⟩ :=
          emitStage_success_inv svc args _ _ ts out0 evs hE
        subst hevs
        intro e he
        rcases List.mem_append.mp he with hx | hx
        · exact hbr e hx
        · simp at hx
          rw [hx]
          rfl

/-- A Service whose `Verify` always answers `false`, used to witness the
abort-on-failed-verification clause. -/
def alwaysFailVerify : ServiceModel Nat Nat Nat :=
  { trivialService with verify_lms_signature := fun _ _ _ => some false }

/-- Witness for `verify_asymmetry`: a concrete `N = 24` run satisfies the
sign/verify adjacency, a concrete `N = 32` run performs no `Verify` call, and
a concrete `N = 24` run whose `Verify` answers `false` ends fatally. -/
theorem verify_asymmetry_witness :
    eachSignVerified (runMain trivialService (List.range 32) ⟨24, 1, 5, 2, "f"⟩).2 = true ∧
    (∀ e ∈ (runMain trivialService (List.range 32) ⟨32, 8, 5, 2, "f"⟩).2,
      e.isVerify = false) ∧
    (runMain alwaysFailVerify (List.range 32) ⟨24, 1, 5, 1, "f"⟩).1 = Outcome.fatal :=
  ⟨((verify_asymmetry trivialService (List.range 32) ⟨24, 1, 5, 2, "f"⟩).1 rfl).1,
   (verify_asymmetry trivialService (List.range 32) ⟨32, 8, 5, 2, "f"⟩).2 rfl,
   ((verify_asymmetry alwaysFailVerify (List.range 32) ⟨24, 1, 5, 1, "f"⟩).1 rfl).2
     message (some false) (by decide) (by decide)⟩

/-- The configuration conditions `main` validates before any Service call:
`H ∈ {5,10,15,20}`, `N ∈ {32,24}`, `W ∈ {1,2,4,8}`, `tests ∈ [1,16]` and
`tests ≤ 2^H` (main.rs:159-186, 248-255). -/
def configOK (args : Args) : Prop :=
  valid_height args.tree_height = true ∧ valid_n args.n = true ∧
    valid_w args.w = true ∧ 1 ≤ args.tests ∧ args.tests ≤ 16 ∧
    args.tests ≤ 2 ^ args.tree_height

instance (args : Args) : Decidable (configOK args) := by
  unfold configOK
  infer_instance

/-- C4: on any configuration error the program reports it and stops with no
Service call and no file creation (empty event trace); and a `fileCreate`
event occurs only in a successful run, as its very last event — the file is
created only once the whole fixture is assembled. -/
theorem config_error_no_side_effects {K PK S : Type} (svc : ServiceModel K PK S)
    (perm : List Nat) (args : Args) :
    (¬ configOK args → ∃ m, runMain svc perm args = (Outcome.configError m, [])) ∧
    (∀ f, Event.fileCreate f ∈ (runMain svc perm args).2 →
      (∃ ts out, (runMain svc perm args).1 = Outcome.success ts out) ∧
      (runMain svc perm args).2.getLast? = some (Event.fileCreate f)) := by
  have bfalse : ∀ b : Bool, ¬(b = true) → b = false := by decide
  constructor
  · intro h
    rw [configOK] at h
    by_cases c1 : valid_height args.tree_height = true
    · by_cases c2 : valid_n args.n = true
      · by_cases c3 : valid_w args.w = true
        · by_cases c4 : 1 ≤ args.tests
          · by_cases c5 : args.tests ≤ 16
            · have c6 : ¬(args.tests ≤ 2 ^ args.tree_height) := fun hx =>
                h ⟨c1, c2, c3, c4, c5, hx⟩
              exact runMain_config_reject svc perm args
                (Or.inr (Or.inr (Or.inr (Or.inr (Or.inr (by omega))))))
            · exact runMain_config_reject svc perm args
                (Or.inr (Or.inr (Or.inr (Or.inr (Or.inl (by omega))))))
          · exact runMain_config_reject svc perm args
              (Or.inr (Or.inr (Or.inr (Or.inl (by omega)))))
        · exact runMain_config_reject svc perm args
            (Or.inr (Or.inr (Or.inl (bfalse _ c3))))
      · exact runMain_config_reject svc perm args (Or.inr (Or.inl (bfalse _ c2)))
    · exact runMain_config_reject svc perm args (Or.inl (bfalse _ c1))
  · intro f hf
    by_cases hv : valid_height args.tree_height = false ∨ valid_n args.n = false ∨
        valid_w args.w = false ∨ args.tests < 1 ∨ args.tests > 16 ∨
        args.tests > 2 ^ args.tree_height
    · obtain ⟨m, hm⟩ := runMain_config_reject svc perm args hv
      rw [hm] at hf
      simp at hf
    · push_neg at hv
      obtain ⟨hb1, hb2, hb3, hb4, hb5, hb6⟩ := hv
      have h1 : valid_height args.tree_height = true := by
        cases hx : valid_height args.tree_height
        · exact absurd hx hb1
        · rfl
      have h2 : valid_n args.n = true := by
        cases hx : valid_n args.n
        · exact absurd hx hb2
        · rfl
      have h3 : valid_w args.w = true := by
        cases hx : valid_w args.w
        · exact absurd hx hb3
        · rfl
      have hmain := runMain_valid_eq svc perm args h1 h2 h3 (by omega) (by omega)
      rw [hmain] at hf ⊢
      have hbr : ∀ e ∈ (runBranch svc (resolveTypes args.n args.w args.tree_height).1
          (resolveTypes args.n args.w args.tree_height).2 args.n
          (choose_multiple perm args.tests)).2, e.isFileCreate = false := by
        refine runBranch_events_all svc _ _ _ _ (fun nv l o => rfl) ?_ ?_
        · intro tree q e he
          exact (signLeaf32_events_prop svc _ _ message tree q e he).2.1
        · intro pk tree q e he
          exact (signLeaf24_events_prop svc _ _ message pk tree q e he).1
      rcases hE : emitStage svc args (resolveTypes args.n args.w args.tree_height).2
          (runBranch svc (resolveTypes args.n args.w args.tree_height).1
            (resolveTypes args.n args.w args.tree_height).2 args.n
            (choose_multiple perm args.tests)) with ⟨out, evs⟩
      rw [hE] at hf
      cases out with
      | configError m0 =>
        exact absurd (by rw [hE] : (emitStage svc args _ _).1 = Outcome.configError m0)
          (emitStage_ne_configError svc args _ _ m0)
      | fatal =>
        have hevs := emitStage_fatal_inv svc args _ _ evs hE
        subst hevs
        have := hbr _ hf
        simp [Event.isFileCreate] at this
      | success ts out0 =>
        obtain ⟨spk, params, hbr1, hp, hout, hevs⟩ :=
          emitStage_success_inv svc args _ _ ts out0 evs hE
        subst hevs
        have hfeq : f = args.filename := by
          rcases List.mem_append.mp hf with hx | hx
          · have := hbr _ hx
            simp [Event.isFileCreate] at this
          · simpa using hx
        subst hfeq
        refine ⟨⟨ts, out0, rfl⟩, ?_⟩
        rw [List.getLast?_append_of_ne_nil _ (by simp)]
        rfl

/-- Witness for `config_error_no_side_effects`: an invalid `N = 7` run is
rejected with no events, and in a concrete successful run the `fileCreate`
event is last and the outcome is success. -/
theorem config_error_no_side_effects_witness :
    (∃ m, runMain trivialService (List.range 32) ⟨7, 8, 5, 1, "f"⟩ =
      (Outcome.configError m, [])) ∧
    ((∃ ts out, (runMain trivialService (List.range 32) ⟨32, 8, 5, 1, "f"⟩).1 =
        Outcome.success ts out) ∧
      (runMain trivialService (List.range 32) ⟨32, 8, 5, 1, "f"⟩).2.getLast? =
        some (Event.fileCreate "f")) :=
  ⟨(config_error_no_side_effects trivialService (List.range 32) ⟨7, 8, 5, 1, "f"⟩).1
      (by decide),
   (config_error_no_side_effects trivialService (List.range 32) ⟨32, 8, 5, 1, "f"⟩).2 "f"
      (by decide)⟩

/-- C5: a run that reaches emission produced exactly one `TestVector` per
sampled leaf index, in the order the sampler produced them (the vectors are
`collectVectors` of the per-leaf signing step over the sampled list), and
every vector is marked `expect_success = true`. -/
theorem one_vector_per_leaf {K PK S : Type} (svc : ServiceModel K PK S) (perm : List Nat)
    (args : Args) (ts : List LmsTest) (out : String) (evs : List Event)
    (h : runMain svc perm args = (Outcome.success ts out, evs)) :
    ∃ pk tree,
      svc.create_lms_tree (if args.n = 32 then 32 else 24)
        (resolveTypes args.n args.w args.tree_height).1
        (resolveTypes args.n args.w args.tree_height).2 = some (pk, tree) ∧
      collectVectors
        (fun q => (if args.n = 32 then
            signLeaf32 svc (resolveTypes args.n args.w args.tree_height).2
              (resolveTypes args.n args.w args.tree_height).1 message tree q
          else signLeaf24 svc (resolveTypes args.n args.w args.tree_height).2
              (resolveTypes args.n args.w args.tree_height).1 message pk tree q).1)
        (choose_multiple perm args.tests) = some ts ∧
      ts.length = (choose_multiple perm args.tests).length ∧
      ∀ t ∈ ts, t.test_passed = true := by
  obtain ⟨h1, h2, h3, h4, h5⟩ := runMain_success_valid svc perm args ts out evs h
  rw [runMain_valid_eq svc perm args h1 h2 h3 h4 h5] at h
  obtain ⟨spk, params, hbr1, hp, hout, hevs⟩ :=
    emitStage_success_inv svc args _ _ ts out evs h
  rcases hbr : runBranch svc (resolveTypes args.n args.w args.tree_height).1
      (resolveTypes args.n args.w args.tree_height).2 args.n
      (choose_multiple perm args.tests) with ⟨res, evs0⟩
  rw [hbr] at hbr1
  simp only at hbr1
  subst hbr1
  obtain ⟨pk, tree, hcreate, hspk, hloopfst, hevs0⟩ :=
    runBranch_some_inv svc _ _ args.n _ spk ts evs0 hbr
  refine ⟨pk, tree, hcreate, ?_, ?_, ?_⟩
  · by_cases hn : args.n = 32
    · simp only [hn, if_true, if_pos rfl] at hloopfst ⊢
      rw [← signLoop_eq_collect]
      exact hloopfst
    · simp only [hn, if_false, if_neg hn] at hloopfst ⊢
      rw [← signLoop_eq_collect]
      exact hloopfst
  · by_cases hn : args.n = 32
    · simp only [hn, if_true, if_pos rfl] at hloopfst
      rw [signLoop_eq_collect] at hloopfst
      rw [collectVectors_length _ _ ts hloopfst]
    · simp only [if_neg hn] at hloopfst
      rw [signLoop_eq_collect] at hloopfst
      rw [collectVectors_length _ _ ts hloopfst]
  · intro t ht
    by_cases hn : args.n = 32
    · simp only [hn, if_true, if_pos rfl] at hloopfst
      rw [signLoop_eq_collect] at hloopfst
      obtain ⟨q, hq, hqt⟩ := collectVectors_mem _ _ ts hloopfst t ht
      exact signLeaf32_some_passed svc _ _ message tree q t hqt
    · simp only [if_neg hn] at hloopfst
      rw [signLoop_eq_collect] at hloopfst
      obtain ⟨q, hq, hqt⟩ := collectVectors_mem _ _ ts hloopfst t ht
      exact signLeaf24_some_passed svc _ _ message pk tree q t hqt

/-- Witness for `one_vector_per_leaf`: the concrete run
`N=32, W=8, H=5, tests=1` with the identity permutation. -/
theorem one_vector_per_leaf_witness :
    ∃ pk tree,
      trivialService.create_lms_tree (if 32 = 32 then 32 else 24)
        (resolveTypes 32 8 5).1 (resolveTypes 32 8 5).2 = some (pk, tree) ∧
      collectVectors
        (fun q => (if 32 = 32 then
            signLeaf32 trivialService (resolveTypes 32 8 5).2 (resolveTypes 32 8 5).1
              message tree q
          else signLeaf24 trivialService (resolveTypes 32 8 5).2 (resolveTypes 32 8 5).1
              message pk tree q).1)
        (choose_multiple (List.range 32) 1) = some [⟨true, [0]⟩] ∧
      ([⟨true, [0]⟩] : List LmsTest).length = (choose_multiple (List.range 32) 1).length ∧
      ∀ t ∈ ([⟨true, [0]⟩] : List LmsTest), t.test_passed = true :=
  one_vector_per_leaf trivialService (List.range 32) ⟨32, 8, 5, 1, "f"⟩ [⟨true, [0]⟩]
    (write_test_file message [0] [⟨true, [0]⟩] 32 34 5)
    [Event.createTree 32 LmsAlgorithmType.LmsSha256N32H5 LmotsAlgorithmType.LmotsSha256N32W8,
      Event.signCall message 0 true, Event.fileCreate "f"] rfl

/-- Associativity of string concatenation (via the underlying data lists). -/
theorem string_append_assoc (a b c : String) : a ++ b ++ c = a ++ (b ++ c) := by
  apply String.ext
  simp [String.data_append, List.append_assoc]

/-- Layout component: the constant message byte array declaration
(main.rs:102-107). -/
def messageDecl (msg : List Nat) : String :=
  "\tconst MESSAGE :[u8; " ++ toString msg.length ++ "] = " ++ rustDebugList msg ++ ";\n"

/-- Layout component: the constant public-key byte array declaration
(main.rs:109-114). -/
def publicKeyDecl (pk : List Nat) : String :=
  "\tconst PUBLIC_KEY_BYTES: [u8; " ++ toString pk.length ++ "] = "
    ++ rustDebugList pk ++ ";\n"

/-- Layout component: the zero-copy reinterpretation of the public-key bytes,
parameterized by `N/4` (main.rs:116-128). -/
def publicKeyReinterp (n4 : Nat) : String :=
  "\tlet (head, thing1, _tail): (&[u8], &[LmsPublicKey<" ++ toString n4
    ++ ">], &[u8]) = unsafe \x7b PUBLIC_KEY_BYTES.align_to::<LmsPublicKey<" ++ toString n4
    ++ ">>() \x7d;\n    \tassert!(head.is_empty());\n    \tlet lms_public_key = thing1[0];\n"

/-- Layout component: the constant array of test-vector records, each holding
`expect_success` and the signature bytes (main.rs:130-139). -/
def testsDecl (tests : List LmsTest) : String :=
  "\tconst TESTS: [LmsTest; " ++ toString tests.length ++ "] = [\n"
    ++ String.join (tests.map testLine) ++ "\t];\n"

/-- Layout component: the per-record zero-copy reinterpretation of the
signature bytes, parameterized by `(N/4, P, H)` (main.rs:141-152). -/
def signatureReinterp (n4 p height : Nat) : String :=
  "\tfor t in TESTS \x7b\n        let (head, thing2, _tail): (&[u8], &[LmsSignature<"
    ++ (toString n4 ++ ", " ++ toString p ++ ", " ++ toString height)
    ++ ">], &[u8]) =\n            unsafe \x7b t.signature.align_to::<LmsSignature<"
    ++ (toString n4 ++ ", " ++ toString p ++ ", " ++ toString height)
    ++ ">>() \x7d;\n"

/-- C6: the emitted artifact of every successful run is, in order: the fixed
header, the constant message array, the constant public-key array, the
public-key reinterpretation parameterized by `N/4`, the test-vector records,
the per-record signature reinterpretation parameterized by `(N/4, P, H)`, and
the fixed footer — where `P` is the chain count obtained from
`GetLmotsParameters` for the resolved LMOTS identifier. -/
theorem output_layout {K PK S : Type} (svc : ServiceModel K PK S) (perm : List Nat)
    (args : Args) (ts : List LmsTest) (out : String) (evs : List Event)
    (h : runMain svc perm args = (Outcome.success ts out, evs)) :
    ∃ spk params,
      svc.get_lmots_parameters (resolveTypes args.n args.w args.tree_height).2 =
        some params ∧
      out = BOILERPLATE_1 ++ messageDecl message ++ publicKeyDecl spk
        ++ publicKeyReinterp (args.n / 4) ++ testsDecl ts
        ++ signatureReinterp (args.n / 4) params.p args.tree_height
        ++ BOILER_PLATE2 := by
  obtain ⟨h1, h2, h3, h4, h5⟩ := runMain_success_valid svc perm args ts out evs h
  rw [runMain_valid_eq svc perm args h1 h2 h3 h4 h5] at h
  obtain ⟨spk, params, hbr1, hp, hout, hevs⟩ :=
    emitStage_success_inv svc args _ _ ts out evs h
  refine ⟨spk, params, hp, ?_⟩
  rw [hout]
  simp only [write_test_file, messageDecl, publicKeyDecl, publicKeyReinterp, testsDecl,
    signatureReinterp, string_append_assoc]

/-- Witness for `output_layout`: the concrete `N=32, W=8, H=5, tests=1`
run. -/
theorem output_layout_witness :
    ∃ spk params,
      trivialService.get_lmots_parameters (resolveTypes 32 8 5).2 = some params ∧
      write_test_file message [0] [⟨true, [0]⟩] 32 34 5 =
        BOILERPLATE_1 ++ messageDecl message ++ publicKeyDecl spk
          ++ publicKeyReinterp (32 / 4) ++ testsDecl [⟨true, [0]⟩]
          ++ signatureReinterp (32 / 4) params.p 5 ++ BOILER_PLATE2 :=
  output_layout trivialService (List.range 32) ⟨32, 8, 5, 1, "f"⟩ [⟨true, [0]⟩]
    (write_test_file message [0] [⟨true, [0]⟩] 32 34 5)
    [Event.createTree 32 LmsAlgorithmType.LmsSha256N32H5 LmotsAlgorithmType.LmotsSha256N32W8,
      Event.signCall message 0 true, Event.fileCreate "f"] rfl

/-- C7 counterexample: at `H = 5` the maximum `tests = 2^5 = 32` run does not
succeed — it is rejected by the `tests ∈ [1,16]` validation with no events
(so in particular no sampling and no file). -/
theorem max_tests_claim_counterexample :
    runMain trivialService (candidate_keys 32) ⟨32, 8, 5, 2 ^ 5, "lms_tests.rs"⟩ =
      (Outcome.configError
        "Invalid number of tests: 32 expected a number between 1 and 16", []) := by
  rfl

/-- C7 (amended): for every valid tree height, `tests = 2^H` exceeds the
`tests ≤ 16` bound (since `2^H ≥ 32`), so the run fails with a configuration
error and produces no file; the sampler itself, asked for `2^H` leaves,
would return every leaf exactly once (its output is a permutation of the
candidate list). -/
theorem max_tests_amended {K PK S : Type} (svc : ServiceModel K PK S) (perm : List Nat)
    (args : Args) (hh : valid_height args.tree_height = true)
    (ht : args.tests = 2 ^ args.tree_height)
    (hperm : perm.Perm (candidate_keys (2 ^ args.tree_height))) :
    (∃ m, runMain svc perm args = (Outcome.configError m, [])) ∧
    (choose_multiple perm (2 ^ args.tree_height)).Perm
      (candidate_keys (2 ^ args.tree_height)) := by
  have hbig : 32 ≤ 2 ^ args.tree_height := by
    simp only [valid_height, Bool.or_eq_true, beq_iff_eq] at hh
    rcases hh with ((h | h) | h) | h <;> rw [h] <;> norm_num
  constructor
  · exact runMain_config_reject svc perm args
      (Or.inr (Or.inr (Or.inr (Or.inr (Or.inl (by omega))))))
  · have hlen : perm.length = 2 ^ args.tree_height := by
      simpa [candidate_keys] using hperm.length_eq
    have heq : choose_multiple perm (2 ^ args.tree_height) = perm := by
      rw [choose_multiple, ← hlen, List.take_length]
    rw [heq]
    exact hperm

/-- Witness for `max_tests_amended` at `H = 5`, `tests = 32`. -/
theorem max_tests_amended_witness :
    (∃ m, runMain trivialService (candidate_keys (2 ^ 5)) ⟨24, 1, 5, 32, "f"⟩ =
      (Outcome.configError m, [])) ∧
    (choose_multiple (candidate_keys (2 ^ 5)) (2 ^ 5)).Perm (candidate_keys (2 ^ 5)) :=
  max_tests_amended trivialService (candidate_keys (2 ^ 5)) ⟨24, 1, 5, 32, "f"⟩
    (by decide) (by decide) (List.Perm.refl _)

/-- C8: any `tests` count exceeding `2^H` is rejected with a configuration
error and an empty event trace — before any Service call and with no file
created (for `tests = 2^H + 1` in particular). -/
theorem reject_too_many_tests {K PK S : Type} (svc : ServiceModel K PK S)
    (perm : List Nat) (args : Args) (h : args.tests > 2 ^ args.tree_height) :
    ∃ m, runMain svc perm args = (Outcome.configError m, []) := by
  cases hv : valid_height args.tree_height
  · exact runMain_config_reject svc perm args (Or.inl hv)
  · have hbig : 32 ≤ 2 ^ args.tree_height := by
      simp only [valid_height, Bool.or_eq_true, beq_iff_eq] at hv
      rcases hv with ((hx | hx) | hx) | hx <;> rw [hx] <;> norm_num
    exact runMain_config_reject svc perm args
      (Or.inr (Or.inr (Or.inr (Or.inr (Or.inl (by omega))))))

/-- Witness for `reject_too_many_tests` at `H = 5`, `tests = 2^5 + 1 = 33`. -/
theorem reject_too_many_tests_witness :
    ∃ m, runMain trivialService (candidate_keys (2 ^ 5)) ⟨32, 8, 5, 33, "f"⟩ =
      (Outcome.configError m, []) :=
  reject_too_many_tests trivialService (candidate_keys (2 ^ 5)) ⟨32, 8, 5, 33, "f"⟩
    (by decide)

/-- C9: the signed message is the fixed 33-byte ASCII constant
"this is the message I want signed", independent of all inputs; every `Sign`
call of any run carries exactly these bytes, and the emitted artifact of any
successful run embeds them (as the decimal-formatted byte array). -/
theorem message_constant {K PK S : Type} (svc : ServiceModel K PK S) (perm : List Nat)
    (args : Args) :
    message.length = 33 ∧
    message = [116, 104, 105, 115, 32, 105, 115, 32, 116, 104, 101, 32, 109, 101, 115,
      115, 97, 103, 101, 32, 73, 32, 119, 97, 110, 116, 32, 115, 105, 103, 110, 101,
      100] ∧
    (∀ m q ok, Event.signCall m q ok ∈ (runMain svc perm args).2 → m = message) ∧
    (∀ ts out evs, runMain svc perm args = (Outcome.success ts out, evs) →
      ∃ s1 s2, out = s1 ++ rustDebugList message ++ s2) := by
  refine ⟨by decide, by decide, ?_, ?_⟩
  · intro m q ok hm
    by_cases hv : valid_height args.tree_height = false ∨ valid_n args.n = false ∨
        valid_w args.w = false ∨ args.tests < 1 ∨ args.tests > 16 ∨
        args.tests > 2 ^ args.tree_height
    · obtain ⟨m0, hm0⟩ := runMain_config_reject svc perm args hv
      rw [hm0] at hm
      simp at hm
    · push_neg at hv
      obtain ⟨hb1, hb2, hb3, hb4, hb5, hb6⟩ := hv
      have h1 : valid_height args.tree_height = true := by
        cases hx : valid_height args.tree_height
        · exact absurd hx hb1
        · rfl
      have h2 : valid_n args.n = true := by
        cases hx : valid_n args.n
        · exact absurd hx hb2
        · rfl
      have h3 : valid_w args.w = true := by
        cases hx : valid_w args.w
        · exact absurd hx hb3
        · rfl
      rw [runMain_valid_eq svc perm args h1 h2 h3 (by omega) (by omega)] at hm
      have hbr : ∀ e ∈ (runBranch svc (resolveTypes args.n args.w args.tree_height).1
          (resolveTypes args.n args.w args.tree_height).2 args.n
          (choose_multiple perm args.tests)).2,
          ∀ m0 q0 ok0, e = Event.signCall m0 q0 ok0 → m0 = message := by
        refine runBranch_events_all svc _ _ _ _ ?_ ?_ ?_
        · intro nv l o m0 q0 ok0 hh
          cases hh
        · intro tree q0 e he
          exact (signLeaf32_events_prop svc _ _ message tree q0 e he).2.2
        · intro pk tree q0 e he
          exact (signLeaf24_events_prop svc _ _ message pk tree q0 e he).2
      rcases hE : emitStage svc args (resolveTypes args.n args.w args.tree_height).2
          (runBranch svc (resolveTypes args.n args.w args.tree_height).1
            (resolveTypes args.n args.w args.tree_height).2 args.n
            (choose_multiple perm args.tests)) with ⟨out, evs⟩
      rw [hE] at hm
      cases out with
      | configError m0 =>
        exact absurd (by rw [hE] : (emitStage svc args _ _).1 = Outcome.configError m0)
          (emitStage_ne_configError svc args _ _ m0)
      | fatal =>
        have hevs := emitStage_fatal_inv svc args _ _ evs hE
        subst hevs
        exact hbr _ hm m q ok rfl
      | success ts out0 =>
        obtain ⟨spk, params, hbr1, hp, hout, hevs⟩ :=
          emitStage_success_inv svc args _ _ ts out0 evs hE
        subst hevs
        rcases List.mem_append.mp hm with hx | hx
        · exact hbr _ hx m q ok rfl
        · simp at hx
  · intro ts out evs hsucc
    obtain ⟨h1, h2, h3, h4, h5⟩ := runMain_success_valid svc perm args ts out evs hsucc
    rw [runMain_valid_eq svc perm args h1 h2 h3 h4 h5] at hsucc
    obtain ⟨spk, params, hbr1, hp, hout, hevs⟩ :=
      emitStage_success_inv svc args _ _ ts out evs hsucc
    refine ⟨BOILERPLATE_1 ++ ("\tconst MESSAGE :[u8; " ++ toString message.length
        ++ "] = "),
      ";\n" ++ (publicKeyDecl spk ++ (publicKeyReinterp (args.n / 4) ++ (testsDecl ts
        ++ (signatureReinterp (args.n / 4) params.p args.tree_height
          ++ BOILER_PLATE2)))), ?_⟩
    rw [hout]
    simp only [write_test_file, publicKeyDecl, publicKeyReinterp, testsDecl,
      signatureReinterp, string_append_assoc]

/-- Witness for `message_constant` on a concrete run: the constant message
facts, a concrete `Sign` event's message, and the embedding in the concrete
output. -/
theorem message_constant_witness :
    message.length = 33 ∧
    message = [116, 104, 105, 115, 32, 105, 115, 32, 116, 104, 101, 32, 109, 101, 115,
      115, 97, 103, 101, 32, 73, 32, 119, 97, 110, 116, 32, 115, 105, 103, 110, 101,
      100] ∧
    message = message ∧
    ∃ s1 s2, write_test_file message [0] [⟨true, [0]⟩] 32 34 5 =
      s1 ++ rustDebugList message ++ s2 :=
  ⟨(message_constant trivialService (List.range 32) ⟨32, 8, 5, 1, "f"⟩).1,
   (message_constant trivialService (List.range 32) ⟨32, 8, 5, 1, "f"⟩).2.1,
   (message_constant trivialService (List.range 32) ⟨32, 8, 5, 1, "f"⟩).2.2.1
     message 0 true (by decide),
   (message_constant trivialService (List.range 32) ⟨32, 8, 5, 1, "f"⟩).2.2.2
     [⟨true, [0]⟩] (write_test_file message [0] [⟨true, [0]⟩] 32 34 5)
     [Event.createTree 32 LmsAlgorithmType.LmsSha256N32H5
        LmotsAlgorithmType.LmotsSha256N32W8,
      Event.signCall message 0 true, Event.fileCreate "f"] rfl⟩

/-- The indexing of the signing loops is in bounds for every sampled offset
in `[0, 2^H)`. -/
def safeForAllLeaves {K : Type} (tree : LmsTreeModel K) (H : Nat) : Prop :=
  ∀ off, off < 2 ^ H → (privateKeyAt tree off).isSome = true

instance {K : Type} (tree : LmsTreeModel K) (H : Nat) :
    Decidable (safeForAllLeaves tree H) := by
  unfold safeForAllLeaves
  infer_instance

/-- C10 counterexample: a tree with base offset 0 and 33 private keys is safe
for every offset in `[0, 2^5)`, yet does not satisfy
`q = 0 ∧ length = 2^5` — the claim's "exactly when" fails. -/
theorem index_safety_counterexample :
    safeForAllLeaves (⟨0, List.replicate 33 0⟩ : LmsTreeModel Nat) 5 ∧
    ¬((⟨0, List.replicate 33 0⟩ : LmsTreeModel Nat).q = 0 ∧
      (⟨0, List.replicate 33 0⟩ : LmsTreeModel Nat).private_keys.length = 2 ^ 5) := by
  decide

/-- C10 (amended): the private-key indexing `tree.q + off` is in bounds for a
given offset exactly when `tree.q + off < length`; it is safe for all
offsets in `[0, 2^H)` exactly when `tree.q + 2^H ≤ length` — a condition
implied by (but not equivalent to) `tree.q = 0` with exactly `2^H` keys. -/
theorem index_safety_amended {K : Type} (tree : LmsTreeModel K) (H : Nat) :
    (∀ off, (privateKeyAt tree off).isSome = true ↔
      tree.q + off < tree.private_keys.length) ∧
    (safeForAllLeaves tree H ↔ tree.q + 2 ^ H ≤ tree.private_keys.length) ∧
    ((tree.q = 0 ∧ tree.private_keys.length = 2 ^ H) → safeForAllLeaves tree H) := by
  have hsome : ∀ off, (privateKeyAt tree off).isSome = true ↔
      tree.q + off < tree.private_keys.length := by
    intro off
    constructor
    · intro hx
      by_contra hc
      rw [privateKeyAt, List.getElem?_eq_none (by omega)] at hx
      simp at hx
    · intro hx
      rw [privateKeyAt, List.getElem?_eq_getElem hx]
      rfl
  have hpow : 0 < 2 ^ H := Nat.two_pow_pos H
  refine ⟨hsome, ⟨?_, ?_⟩, ?_⟩
  · intro hall
    have h2 := (hsome (2 ^ H - 1)).mp (hall _ (by omega))
    omega
  · intro hle off hoff
    rw [hsome]
    omega
  · rintro ⟨hq, hlen⟩ off hoff
    rw [hsome]
    omega

/-- Witness for `index_safety_amended` at a tree with offset 0 and `2^5`
keys. -/
theorem index_safety_amended_witness :
    ((privateKeyAt (⟨0, List.replicate 32 0⟩ : LmsTreeModel Nat) 31).isSome = true ↔
      (⟨0, List.replicate 32 0⟩ : LmsTreeModel Nat).q + 31 <
        (⟨0, List.replicate 32 0⟩ : LmsTreeModel Nat).private_keys.length) ∧
    safeForAllLeaves (⟨0, List.replicate 32 0⟩ : LmsTreeModel Nat) 5 :=
  ⟨(index_safety_amended (⟨0, List.replicate 32 0⟩ : LmsTreeModel Nat) 5).1 31,
   (index_safety_amended (⟨0, List.replicate 32 0⟩ : LmsTreeModel Nat) 5).2.2
     ⟨rfl, by decide⟩⟩
